import Mathlib

/-!
Shallow embedding of the request-matching and mock-resolution engine of the
`mocaron` mock server (src/MockServer.ts, src/matchRequest.ts,
src/ExpectationMessage.ts), together with theorems settling the claims about
its specification.

Modelling conventions:
* JavaScript strings are Lean `String`s; `toLowerCase()` comparisons are
  modelled at the level of character codes on the ASCII range (`lowerCode`).
* JSON values (results of `JSON.parse`, express query values, structural
  matcher bodies) are the inductive `Json`; the `deep-equal` package with
  `strict: true` is type-sensitive structural equality, modelled by the
  structural `Json.beq`.
* `JSON.parse` itself is an external runtime routine; it is modelled as an
  explicit parameter `parse : String → Option Json` (`none` models a thrown
  `SyntaxError`) threaded through every definition that parses a body.
* Regular expressions are modelled by their `test` semantics, a predicate
  `String → Bool`.
* A request body is the decoded text of the raw `Buffer` (`Option String`;
  `none` models `undefined`, i.e. an absent body).
* JavaScript truthiness tests on optional string-valued fields
  (`!matcher.method`, `if (matcher.path)`, ...) are modelled explicitly:
  `none` and the empty string are falsy, everything else is truthy.
-/

namespace Mocaron

/-- JSON-like structural values: express query values, parsed request bodies
and structural matcher bodies. -/
inductive Json where
  | null
  | bool (b : Bool)
  | num (q : ℚ)
  | str (s : String)
  | arr (xs : List Json)
  | obj (fs : List (String × Json))

mutual

/-- Type-sensitive structural equality on `Json`, the model of
`deepEqual(a, b, (strict: true))` on JSON values. -/
def Json.beq : Json → Json → Bool
  | .null, .null => true
  | .bool a, .bool b => a == b
  | .num a, .num b => a == b
  | .str a, .str b => a == b
  | .arr as, .arr bs => Json.beqArr as bs
  | .obj fs, .obj gs => Json.beqObj fs gs
  | _, _ => false

/-- Structural equality on JSON arrays (order-sensitive). -/
def Json.beqArr : List Json → List Json → Bool
  | [], [] => true
  | a :: as, b :: bs => Json.beq a b && Json.beqArr as bs
  | _, _ => false

/-- Structural equality on JSON objects (field lists). -/
def Json.beqObj : List (String × Json) → List (String × Json) → Bool
  | [], [] => true
  | (k, a) :: fs, (l, b) :: gs => k == l && Json.beq a b && Json.beqObj fs gs
  | _, _ => false

end

/-- ASCII lower-casing of a character code, the model of JavaScript
`toLowerCase()` on the ASCII range. -/
def lowerCode (n : Nat) : Nat := if 65 ≤ n && n ≤ 90 then n + 32 else n

/-- The character codes of a string. -/
def strCodes (s : String) : List Nat := s.data.map Char.toNat

/-- The character codes of `s.toLowerCase()`. -/
def lowerStr (s : String) : List Nat := (strCodes s).map lowerCode

/-- Case-insensitive string equality:
`a.toLowerCase() === b.toLowerCase()`. -/
def eqCI (a b : String) : Bool := lowerStr a == lowerStr b

/-- A parsed incoming request as the engine sees it (express `Request`):
method, path, parsed query, headers (keys stored lower-cased by node),
and the raw body (`none` models `undefined`, i.e. no body was sent). -/
structure Request where
  method : String
  path : String
  query : List (String × Json)
  headers : List (String × String)
  body : Option String

/-- A path matcher: a literal string or a regular expression, the latter
modelled by its match predicate (`!!req.path.match(re)`). -/
inductive PathPattern where
  | str (s : String)
  | regex (test : String → Bool)

/-- A body matcher: a literal string or a structural (JSON) value. -/
inductive BodyVal where
  | str (s : String)
  | json (j : Json)

/-- `MatcherObj` from src/matchRequest.ts: every field optional; a query or
header entry whose value is `none` models a key explicitly set to
`undefined`. -/
structure MatcherObj where
  method : Option String := none
  path : Option PathPattern := none
  query : Option (List (String × Option Json)) := none
  headers : Option (List (String × Option String)) := none
  body : Option BodyVal := none

/-- `Matcher` from src/matchRequest.ts: an object matcher or a predicate. -/
inductive Matcher where
  | obj (m : MatcherObj)
  | fn (f : Request → Bool)

/-- Structural equality of optional JSON values, the model of
`deepEqual(req.query[k], v, (strict: true))` where either side may be
`undefined`. -/
def optJsonBeq : Option Json → Option Json → Bool
  | none, none => true
  | some a, some b => Json.beq a b
  | _, _ => false

/-- `req.headers[k.toLowerCase()]`: look up the header whose stored name
equals the lower-cased matcher key. -/
def headerGet (hs : List (String × String)) (k : String) : Option String :=
  (hs.find? fun kv => strCodes kv.1 == lowerStr k).map (·.2)

/-- `matchMethod` from src/matchRequest.ts:
`!matcher.method || matcher.method.toLowerCase() === req.method.toLowerCase()`.
A present-but-empty method string is falsy, so it matches everything. -/
def matchMethod (m : MatcherObj) (req : Request) : Bool :=
  match m.method with
  | none => true
  | some s => s == "" || eqCI s req.method

/-- `matchPath` from src/matchRequest.ts: absent (or empty-string, which is
falsy) path matches; a regex is tested against the path; a string must equal
the path exactly. -/
def matchPath (m : MatcherObj) (req : Request) : Bool :=
  match m.path with
  | none => true
  | some (.str s) => s == "" || req.path == s
  | some (.regex t) => t req.path

/-- `matchQuery` from src/matchRequest.ts: every entry of the matcher query
must be strictly deep-equal to the request's value for that key. -/
def matchQuery (m : MatcherObj) (req : Request) : Bool :=
  match m.query with
  | none => true
  | some entries => entries.all fun kv => optJsonBeq (req.query.lookup kv.1) kv.2

/-- `matchHeaders` from src/matchRequest.ts: every entry of the matcher
headers must be strictly equal (`===`) to the request header under the
lower-cased key. -/
def matchHeaders (m : MatcherObj) (req : Request) : Bool :=
  match m.headers with
  | none => true
  | some entries => entries.all fun kv => headerGet req.headers kv.1 == kv.2

/-- `matchBody` from src/matchRequest.ts: absent matcher body matches; a
present matcher body never matches a body-less request; a string matcher is
compared to the decoded raw body; a structural matcher is compared
(strict deep equality) to the body parsed as JSON, where a parse failure is
a non-match. -/
def matchBody (parse : String → Option Json) (m : MatcherObj) (req : Request) :
    Bool :=
  match m.body with
  | none => true
  | some bv =>
    match req.body with
    | none => false
    | some raw =>
      match bv with
      | .str s => s == raw
      | .json j =>
        match parse raw with
        | none => false
        | some parsed => Json.beq j parsed

/-- `matchRequest` from src/matchRequest.ts: delegate to a function matcher,
otherwise conjoin the five sub-predicates. -/
def matchRequest (parse : String → Option Json) :
    Matcher → Request → Bool
  | .fn f, req => f req
  | .obj m, req =>
    matchMethod m req && matchPath m req && matchQuery m req &&
      matchHeaders m req && matchBody parse m req

/-- `ResponseObj` from src/MockServer.ts: optional status, headers and body
(`BodyVal.json` models an object body, serialized as JSON when sent). -/
structure ResponseObj where
  status : Option Nat := none
  headers : Option (List (String × String)) := none
  body : Option BodyVal := none

/-- `Response` from src/MockServer.ts: a response object or a function of
the request, evaluated lazily at resolution time. -/
inductive Response where
  | obj (o : ResponseObj)
  | fn (f : Request → ResponseObj)

/-- `MockOptions` from src/MockServer.ts. -/
structure MockOptions where
  overwrite : Option Bool := none

/-- `Mock` from src/MockServer.ts. -/
structure Mock where
  matcher : Matcher
  response : Response
  options : MockOptions

/-- `Call` from src/MockServer.ts. -/
structure Call where
  request : Request
  matcher : Matcher

/-- The mutable state of a `MockServer` instance: the mock registry
(`#mocks`) and the call ledger (`#calls`), both in registration/arrival
order. -/
structure ServerState where
  mocks : List Mock := []
  calls : List Call := []

/-- Truthiness of `match.options.overwrite` (`undefined` and `false` are
falsy). -/
def overwriteSet (o : MockOptions) : Bool := o.overwrite.getD false

/-- Truthiness of `response.body`: an empty string body is falsy and is not
sent (`if (response.body) res.send(...)`). -/
def bodyTruthy : BodyVal → Bool
  | .str s => !(s == "")
  | .json _ => true

/-- The concrete reply assembled by the request handler for a served mock. -/
structure BuiltResponse where
  status : Nat
  headers : List (String × String)
  body : Option BodyVal

/-- The response-building tail of the request handler in src/MockServer.ts:
evaluate a function response against the request, default the status to 200,
set the headers as given, and send the body only when truthy. -/
def buildResponse (r : Response) (req : Request) : BuiltResponse :=
  let o := match r with
    | .obj o => o
    | .fn f => f req
  { status := o.status.getD 200
    headers := o.headers.getD []
    body := match o.body with
      | some b => if bodyTruthy b then some b else none
      | none => none }

/-- Per-request outcome of the resolution engine: unmatched 404 (warn, no
call recorded), ambiguous 404 (warn, call recorded, response never
evaluated), or a served response. -/
inductive Outcome where
  | unmatched
  | ambiguous
  | served (r : BuiltResponse)

/-- HTTP status of an outcome: both 404 branches call
`res.status(404).end()`. -/
def outcomeStatus : Outcome → Nat
  | .unmatched => 404
  | .ambiguous => 404
  | .served r => r.status

/-- Candidate selection in the request handler:
`matches.length === 1 ? matches[0] : matches.at(-1)!`. -/
def chooseCandidate (l : List Mock) : Option Mock :=
  if l.length == 1 then l[0]? else l.getLast?

/-- The request handler installed by the `MockServer` constructor
(src/MockServer.ts): filter the registry through the matcher evaluator;
on no match answer 404 without recording; otherwise record a `Call` for the
candidate and then either answer 404 (ambiguous without overwrite) or serve
the candidate's response. -/
def handleRequest (parse : String → Option Json) (st : ServerState)
    (req : Request) : ServerState × Outcome :=
  let ms := st.mocks.filter fun mk => matchRequest parse mk.matcher req
  if ms.length == 0 then
    (st, .unmatched)
  else
    match chooseCandidate ms with
    | none => (st, .unmatched)
    | some mk =>
      let st1 : ServerState :=
        { st with calls := st.calls ++ [{ request := req, matcher := mk.matcher }] }
      if ms.length > 1 && !(overwriteSet mk.options) then
        (st1, .ambiguous)
      else
        (st1, .served (buildResponse mk.response req))

/-- A matcher argument to the public API: a bare path string, a bare path
regular expression, or a full matcher. -/
inductive MatcherArg where
  | str (s : String)
  | regex (test : String → Bool)
  | matcher (m : Matcher)

/-- `#resolvePathMatcher` from src/MockServer.ts: a bare string or regex is
normalized to a path-only object matcher. -/
def resolvePathMatcher : MatcherArg → Matcher
  | .str s => .obj { path := some (.str s) }
  | .regex t => .obj { path := some (.regex t) }
  | .matcher m => m

/-- A response argument to `mock()`: a bare body string, a bare status
number, or a full response. -/
inductive ResponseArg where
  | str (s : String)
  | num (n : Nat)
  | resp (r : Response)

/-- Registration-time response coercion in `mock()`: a bare string becomes a
body, a bare number becomes a status. -/
def coerceResponse : ResponseArg → Response
  | .str s => .obj { body := some (.str s) }
  | .num n => .obj { status := some n }
  | .resp r => r

/-- `mock()` from src/MockServer.ts: normalize the matcher, coerce the
response, and append the mock to the registry. -/
def mock (st : ServerState) (arg : MatcherArg) (r : ResponseArg)
    (opts : MockOptions) : ServerState :=
  { st with
    mocks := st.mocks ++
      [{ matcher := resolvePathMatcher arg, response := coerceResponse r,
         options := opts }] }

/-- `mocks()` from src/MockServer.ts (a snapshot of the registry). -/
def listMocks (st : ServerState) : List Mock := st.mocks

/-- `calls()` from src/MockServer.ts (a snapshot of the call ledger). -/
def listCalls (st : ServerState) : List Call := st.calls

/-- `hasBeenCalledWith()` from src/MockServer.ts: normalize the matcher and
test whether some recorded call's request satisfies it. -/
def hasBeenCalledWith (parse : String → Option Json) (st : ServerState)
    (arg : MatcherArg) : Bool :=
  let resolved := resolvePathMatcher arg
  st.calls.any fun c => matchRequest parse resolved c.request

/-- `hasBeenCalledTimes()` from src/MockServer.ts: normalize the matcher and
compare the number of matching recorded calls with `times`. -/
def hasBeenCalledTimes (parse : String → Option Json) (st : ServerState)
    (times : Nat) (arg : MatcherArg) : Bool :=
  let resolved := resolvePathMatcher arg
  (st.calls.filter fun c => matchRequest parse resolved c.request).length ==
    times

/-- The spec's `countMatching` (§4.5): the number of recorded calls whose
original request satisfies the matcher evaluator against the normalized
matcher. Stated from the spec's words; used to state claim C7. -/
def countMatching (parse : String → Option Json) (st : ServerState)
    (arg : MatcherArg) : Nat :=
  (st.calls.filter fun c =>
    matchRequest parse (resolvePathMatcher arg) c.request).length

/-- `resetMocks()` from src/MockServer.ts. -/
def resetMocks (st : ServerState) : ServerState := { st with mocks := [] }

/-- `resetCalls()` from src/MockServer.ts. -/
def resetCalls (st : ServerState) : ServerState := { st with calls := [] }

/-- `reset()` from src/MockServer.ts: `resetMocks()` then `resetCalls()`. -/
def reset (st : ServerState) : ServerState := resetCalls (resetMocks st)

/-- Replace every registered mock's response, leaving matchers and options
untouched; used to state that an ambiguous 404 never evaluates any response
specification. -/
def setResponses (r : Response) (st : ServerState) : ServerState :=
  { st with mocks := st.mocks.map fun mk => { mk with response := r } }

/-- Truthiness of an optional string field (`undefined` and `""` falsy). -/
def optStrTruthy : Option String → Bool
  | none => false
  | some s => !(s == "")

/-- Truthiness of `matcher.path` (`undefined` and `""` falsy; a regex object
is always truthy). -/
def pathTruthy : Option PathPattern → Bool
  | none => false
  | some (.str s) => !(s == "")
  | some (.regex _) => true

/-- Truthiness of `matcher.query` (an object is always truthy). -/
def queryTruthy : Option (List (String × Option Json)) → Bool
  | none => false
  | some _ => true

/-- Truthiness of `matcher.headers` (an object is always truthy). -/
def headersTruthy : Option (List (String × Option String)) → Bool
  | none => false
  | some _ => true

/-- Truthiness of `matcher.body` (`undefined` and `""` falsy; an object is
always truthy). -/
def bodyOptTruthy : Option BodyVal → Bool
  | none => false
  | some b => bodyTruthy b

/-- `score` from src/ExpectationMessage.ts, rendered as the source's
sequential accumulation of `(maxPoints, points)` over the five guarded
blocks, returning `(points / maxPoints) * 100` in ℚ. When no field passes
its truthiness guard the source computes `0/0` (`NaN` in JavaScript); in ℚ
this value is `0`. -/
def score (parse : String → Option Json) (m : MatcherObj) (req : Request) :
    ℚ :=
  let acc : ℚ × ℚ := (0, 0)
  let acc := if optStrTruthy m.method then
      (acc.1 + 1, if matchMethod m req then acc.2 + 1 else acc.2)
    else acc
  let acc := if pathTruthy m.path then
      (acc.1 + 3, if matchPath m req then acc.2 + 3 else acc.2)
    else acc
  let acc := if queryTruthy m.query then
      (acc.1 + 3, if matchQuery m req then acc.2 + 3 else acc.2)
    else acc
  let acc := if headersTruthy m.headers then
      (acc.1 + 2, if matchHeaders m req then acc.2 + 2 else acc.2)
    else acc
  let acc := if bodyOptTruthy m.body then
      (acc.1 + 4, if matchBody parse m req then acc.2 + 4 else acc.2)
    else acc
  acc.2 / acc.1 * 100

/-- Weight contribution of one matcher field: its weight when the field is
counted, 0 otherwise. -/
def countedWeight (counted : Bool) (w : ℚ) : ℚ := if counted then w else 0

/-- The similarity score as the amended claim C8 states it: the sum of the
weights of the truthiness-counted fields whose sub-predicate holds on the
request, divided by the sum of the weights of all truthiness-counted fields,
times 100 (weights: method 1, path 3, query 3, headers 2, body 4). -/
def scoreFormula (parse : String → Option Json) (m : MatcherObj)
    (req : Request) : ℚ :=
  (countedWeight (optStrTruthy m.method && matchMethod m req) 1 +
      countedWeight (pathTruthy m.path && matchPath m req) 3 +
      countedWeight (queryTruthy m.query && matchQuery m req) 3 +
      countedWeight (headersTruthy m.headers && matchHeaders m req) 2 +
      countedWeight (bodyOptTruthy m.body && matchBody parse m req) 4) /
    (countedWeight (optStrTruthy m.method) 1 +
      countedWeight (pathTruthy m.path) 3 +
      countedWeight (queryTruthy m.query) 3 +
      countedWeight (headersTruthy m.headers) 2 +
      countedWeight (bodyOptTruthy m.body) 4) * 100

/-- The similarity-score formula exactly as claim C8 states it, with
"present fields" meaning fields set on the matcher regardless of
truthiness. -/
def scoreFormulaPresent (parse : String → Option Json) (m : MatcherObj)
    (req : Request) : ℚ :=
  (countedWeight (m.method.isSome && matchMethod m req) 1 +
      countedWeight (m.path.isSome && matchPath m req) 3 +
      countedWeight (m.query.isSome && matchQuery m req) 3 +
      countedWeight (m.headers.isSome && matchHeaders m req) 2 +
      countedWeight (m.body.isSome && matchBody parse m req) 4) /
    (countedWeight m.method.isSome 1 +
      countedWeight m.path.isSome 3 +
      countedWeight m.query.isSome 3 +
      countedWeight m.headers.isSome 2 +
      countedWeight m.body.isSome 4) * 100

/-- The order in which `formatDiffs` (src/ExpectationMessage.ts) emits the
per-call diff blocks: the recorded calls' requests paired with their scores,
stably sorted by the comparator `scoreB - scoreA` (`toSorted`), i.e. by the
relation `scoreB - scoreA ≤ 0`. -/
def formatDiffsOrder (parse : String → Option Json) (st : ServerState)
    (m : MatcherObj) : List Request :=
  ((st.calls.map fun c => (c.request, score parse m c.request)).mergeSort
      fun a b => decide (b.2 - a.2 ≤ 0)).map Prod.fst

/-- The body sub-predicate exactly as claim C5 states it, as a function of
the matcher body and the raw request body: no request body never matches; a
string matcher requires the decoded raw body to equal it exactly; a
structural matcher requires the body to parse as JSON and be structurally
equal to it, a parse failure being a non-match. -/
def bodyClaim (parse : String → Option Json) (bv : BodyVal)
    (reqBody : Option String) : Bool :=
  match reqBody with
  | none => false
  | some raw =>
    match bv with
    | .str s => raw == s
    | .json j =>
      match parse raw with
      | none => false
      | some parsed => Json.beq j parsed

/-- The method sub-predicate exactly as claim C9 states it: absent method
matches everything, otherwise case-insensitive equality is required. -/
def methodClaim (mm : Option String) (reqMethod : String) : Bool :=
  match mm with
  | none => true
  | some s => eqCI s reqMethod

/-- The method sub-predicate as amended: a method field that is absent or
the empty string matches everything, otherwise case-insensitive equality is
required. -/
def methodClaimAmended (mm : Option String) (reqMethod : String) : Bool :=
  match mm with
  | none => true
  | some s => if s = "" then true else eqCI s reqMethod

/-- Trivial JSON-parse stand-in used by concrete witnesses: every body fails
to parse. -/
def parse0 : String → Option Json := fun _ => none

/-- A concrete body-less GET request used by concrete witnesses. -/
def getReq (p : String) : Request :=
  { method := "GET", path := p, query := [], headers := [], body := none }

/-- A concrete POST request with body `"hi"` used by concrete witnesses. -/
def postReq : Request :=
  { method := "POST", path := "/x", query := [], headers := [],
    body := some "hi" }

/-- A concrete path-matching mock used by concrete witnesses. -/
def pathMock (p : String) (b : String) (ow : Option Bool) : Mock :=
  { matcher := .obj { path := some (.str p) },
    response := .obj { body := some (.str b) },
    options := { overwrite := ow } }

/-- A concrete registry with two plain mocks both matching path `/x`. -/
def twoPlainState : ServerState :=
  { mocks := [pathMock "/x" "a" none, pathMock "/x" "b" none], calls := [] }

/-- A concrete registry with two mocks matching path `/x`, the second with
`overwrite: true`. -/
def twoOverwriteState : ServerState :=
  { mocks := [pathMock "/x" "a" none, pathMock "/x" "b" (some true)],
    calls := [] }

theorem chooseCandidate_eq_getLast? (l : List Mock) :
    chooseCandidate l = l.getLast? := by
  match l with
  | [] => rfl
  | [a] => rfl
  | a :: b :: t =>
    have hlen : ((a :: b :: t).length == 1) = false := by
      simp [List.length_cons]
    unfold chooseCandidate
    rw [hlen]
    simp

theorem any_eq_decide_filter_pos {α : Type} (l : List α) (p : α → Bool) :
    l.any p = decide (0 < (l.filter p).length) := by
  induction l with
  | nil => rfl
  | cons a t ih =>
    by_cases h : p a <;> simp [List.any_cons, List.filter_cons, h, ih]

/-- C1: whenever at least one registered mock matches the request, the
resolution engine selects the last matching mock (in registration order) as
the candidate — also when exactly one matches — and appends exactly one
`Call` carrying the request and the candidate's matcher to the call ledger,
in every outcome, i.e. also when the request is then answered 404 as
ambiguous. -/
theorem candidate_is_last_and_call_always_recorded
    (parse : String → Option Json) (st : ServerState) (req : Request)
    (h : st.mocks.filter (fun mk => matchRequest parse mk.matcher req) ≠ []) :
    chooseCandidate
        (st.mocks.filter fun mk => matchRequest parse mk.matcher req) =
      some ((st.mocks.filter fun mk =>
        matchRequest parse mk.matcher req).getLast h) ∧
    (handleRequest parse st req).1.calls =
      st.calls ++ [⟨req, ((st.mocks.filter fun mk =>
        matchRequest parse mk.matcher req).getLast h).matcher⟩] := by
  have hcc : chooseCandidate
      (st.mocks.filter fun mk => matchRequest parse mk.matcher req) =
      some ((st.mocks.filter fun mk =>
        matchRequest parse mk.matcher req).getLast h) := by
    rw [chooseCandidate_eq_getLast?]
    exact List.getLast?_eq_getLast _ h
  refine ⟨hcc, ?_⟩
  have hlen : ((st.mocks.filter fun mk =>
      matchRequest parse mk.matcher req).length == 0) = false := by
    simp [List.length_eq_zero, h]
  simp only [handleRequest, hlen, Bool.false_eq_true, if_false, hcc]
  split <;> rfl

/-- C1 witness: a single registered mock matching `GET /x`; the handler
records exactly one call carrying that mock's matcher. -/
theorem candidate_is_last_and_call_always_recorded_witness :
    ({ mocks := [pathMock "/x" "a" none],
       calls := [] } : ServerState).mocks.filter
        (fun mk => matchRequest parse0 mk.matcher (getReq "/x")) ≠ [] ∧
    (handleRequest parse0
        { mocks := [pathMock "/x" "a" none], calls := [] }
        (getReq "/x")).1.calls =
      [] ++ [⟨getReq "/x", (([pathMock "/x" "a" none].filter fun mk =>
        matchRequest parse0 mk.matcher (getReq "/x")).getLast
          (by simp [pathMock, matchRequest, matchPath, matchMethod,
            matchQuery, matchHeaders, matchBody, getReq])).matcher⟩] := by
  refine ⟨by simp [pathMock, matchRequest, matchPath, matchMethod,
    matchQuery, matchHeaders, matchBody, getReq], ?_⟩
  exact (candidate_is_last_and_call_always_recorded parse0
    { mocks := [pathMock "/x" "a" none], calls := [] } (getReq "/x") _).2

theorem getLast?_map {α β : Type} (f : α → β) :
    ∀ l : List α, (l.map f).getLast? = l.getLast?.map f
  | [] => rfl
  | [_] => rfl
  | a :: b :: t => by
    rw [List.map_cons, List.map_cons, List.getLast?_cons_cons,
      List.getLast?_cons_cons, ← List.map_cons]
    exact getLast?_map f (b :: t)

/-- C2: on two or more matches whose last (candidate) mock has not opted
into `overwrite`, the engine answers 404 as ambiguous without evaluating any
response specification (the outcome is unchanged under arbitrary replacement
of every registered response, so no `ResponseFn` is invoked); on a single
match, or multiple matches whose candidate has `overwrite: true`, it serves
the response built from the candidate's response specification. -/
theorem ambiguous_404_or_serve_candidate
    (parse : String → Option Json) (st : ServerState) (req : Request)
    (h : st.mocks.filter (fun mk => matchRequest parse mk.matcher req) ≠ []) :
    (1 < (st.mocks.filter fun mk =>
        matchRequest parse mk.matcher req).length →
      overwriteSet ((st.mocks.filter fun mk =>
        matchRequest parse mk.matcher req).getLast h).options = false →
      (handleRequest parse st req).2 = .ambiguous ∧
      outcomeStatus (handleRequest parse st req).2 = 404 ∧
      ∀ r, (handleRequest parse (setResponses r st) req).2 = .ambiguous) ∧
    ((st.mocks.filter fun mk =>
        matchRequest parse mk.matcher req).length = 1 ∨
      overwriteSet ((st.mocks.filter fun mk =>
        matchRequest parse mk.matcher req).getLast h).options = true →
      (handleRequest parse st req).2 =
        .served (buildResponse ((st.mocks.filter fun mk =>
          matchRequest parse mk.matcher req).getLast h).response req)) := by
  have hcc : chooseCandidate
      (st.mocks.filter fun mk => matchRequest parse mk.matcher req) =
      some ((st.mocks.filter fun mk =>
        matchRequest parse mk.matcher req).getLast h) := by
    rw [chooseCandidate_eq_getLast?]
    exact List.getLast?_eq_getLast _ h
  have hlen : ((st.mocks.filter fun mk =>
      matchRequest parse mk.matcher req).length == 0) = false := by
    simp [List.length_eq_zero, h]
  constructor
  · intro hgt how
    have main : (handleRequest parse st req).2 = .ambiguous := by
      simp only [handleRequest, hlen, Bool.false_eq_true, if_false, hcc]
      split
      · rfl
      · rename_i hcond
        exfalso
        apply hcond
        simp only [Bool.and_eq_true, decide_eq_true_eq, Bool.not_eq_true']
        exact ⟨hgt, how⟩
    refine ⟨main, by rw [main]; rfl, ?_⟩
    intro r
    have hfm : (setResponses r st).mocks.filter
        (fun mk => matchRequest parse mk.matcher req) =
        (st.mocks.filter fun mk => matchRequest parse mk.matcher req).map
          (fun mk => { mk with response := r }) := by
      show (st.mocks.map fun mk => { mk with response := r }).filter _ = _
      rw [List.filter_map]
      rfl
    have h' : (setResponses r st).mocks.filter
        (fun mk => matchRequest parse mk.matcher req) ≠ [] := by
      rw [hfm]
      simp [h]
    have hlen' : (((setResponses r st).mocks.filter fun mk =>
        matchRequest parse mk.matcher req).length == 0) = false := by
      simp [List.length_eq_zero, h']
    have hcc' : chooseCandidate ((setResponses r st).mocks.filter
        fun mk => matchRequest parse mk.matcher req) =
        some { (st.mocks.filter fun mk =>
            matchRequest parse mk.matcher req).getLast h with
          response := r } := by
      rw [chooseCandidate_eq_getLast?, hfm, getLast?_map,
        List.getLast?_eq_getLast _ h]
      rfl
    have hlenEq : ((setResponses r st).mocks.filter
        (fun mk => matchRequest parse mk.matcher req)).length =
        (st.mocks.filter fun mk =>
          matchRequest parse mk.matcher req).length := by
      rw [hfm, List.length_map]
    simp only [handleRequest, hlen', Bool.false_eq_true, if_false, hcc']
    split
    · rfl
    · rename_i hcond
      exfalso
      apply hcond
      rw [hlenEq]
      simp only [Bool.and_eq_true, decide_eq_true_eq, Bool.not_eq_true']
      exact ⟨hgt, how⟩
  · intro hor
    simp only [handleRequest, hlen, Bool.false_eq_true, if_false, hcc]
    split
    · rename_i hcond
      exfalso
      rcases hor with h1 | h2
      · rw [h1] at hcond
        simp at hcond
      · rw [h2] at hcond
        simp at hcond
    · rfl

/-- C2 witness: two mocks both matching `GET /x`; with the last one plain
the request is answered as ambiguous with status 404, with the last one
overwriting the candidate's response is served. -/
theorem ambiguous_404_or_serve_candidate_witness :
    ((handleRequest parse0 twoPlainState (getReq "/x")).2 = .ambiguous ∧
      outcomeStatus (handleRequest parse0 twoPlainState
        (getReq "/x")).2 = 404) ∧
    (handleRequest parse0 twoOverwriteState (getReq "/x")).2 =
      .served (buildResponse (pathMock "/x" "b" (some true)).response
        (getReq "/x")) := by
  have hne : twoPlainState.mocks.filter
      (fun mk => matchRequest parse0 mk.matcher (getReq "/x")) ≠ [] := by
    simp [twoPlainState, pathMock, matchRequest, matchMethod, matchPath,
      matchQuery, matchHeaders, matchBody, getReq]
  have hne2 : twoOverwriteState.mocks.filter
      (fun mk => matchRequest parse0 mk.matcher (getReq "/x")) ≠ [] := by
    simp [twoOverwriteState, pathMock, matchRequest, matchMethod, matchPath,
      matchQuery, matchHeaders, matchBody, getReq]
  have hA := (ambiguous_404_or_serve_candidate parse0 twoPlainState
    (getReq "/x") hne).1
    (by norm_num [twoPlainState, pathMock, matchRequest, matchMethod,
      matchPath, matchQuery, matchHeaders, matchBody, getReq])
    (by rfl)
  have hB := (ambiguous_404_or_serve_candidate parse0 twoOverwriteState
    (getReq "/x") hne2).2 (Or.inr (by rfl))
  exact ⟨⟨hA.1, hA.2.1⟩, hB⟩

/-- C3: a request matching no registered mock is answered 404 and leaves the
call ledger (and the whole state) unchanged; no `Call` is recorded. -/
theorem unmatched_404_no_call (parse : String → Option Json)
    (st : ServerState) (req : Request)
    (h : st.mocks.filter (fun mk => matchRequest parse mk.matcher req) = []) :
    handleRequest parse st req = (st, .unmatched) ∧
    outcomeStatus (handleRequest parse st req).2 = 404 ∧
    (handleRequest parse st req).1.calls = st.calls := by
  have h1 : handleRequest parse st req = (st, .unmatched) := by
    simp only [handleRequest, h]
    rfl
  exact ⟨h1, by rw [h1]; rfl, by rw [h1]⟩

/-- C3 witness: no mocks registered, request `GET /z`: outcome 404, ledger
stays empty. -/
theorem unmatched_404_no_call_witness :
    (({} : ServerState).mocks.filter
        fun mk => matchRequest parse0 mk.matcher (getReq "/z")) = [] ∧
    handleRequest parse0 {} (getReq "/z") = ({}, .unmatched) ∧
    (handleRequest parse0 {} (getReq "/z")).1.calls = [] := by
  refine ⟨rfl, ?_, ?_⟩
  · exact (unmatched_404_no_call parse0 {} (getReq "/z") rfl).1
  · exact (unmatched_404_no_call parse0 {} (getReq "/z") rfl).2.2

/-- C4: an `ObjectMatcher` with no fields set satisfies `matchRequest` for
every request and every JSON-parse behavior. -/
theorem empty_matcher_matches_everything (parse : String → Option Json)
    (req : Request) : matchRequest parse (.obj {}) req = true := rfl

/-- C6: `resetMocks` empties the registry and leaves the ledger unchanged,
`resetCalls` empties the ledger and leaves the registry unchanged, and
`reset` empties both; neither single reset clears the other store. -/
theorem reset_independence (st : ServerState) :
    listMocks (resetMocks st) = [] ∧
    listCalls (resetMocks st) = listCalls st ∧
    listMocks (resetCalls st) = listMocks st ∧
    listCalls (resetCalls st) = [] ∧
    listMocks (reset st) = [] ∧
    listCalls (reset st) = [] :=
  ⟨rfl, rfl, rfl, rfl, rfl, rfl⟩

/-- C5: whenever the matcher's body field is present, `matchBody` behaves
exactly as the claim's body sub-predicate: a body-less request never
matches; a string matcher body requires exact equality with the decoded raw
body; a structural matcher body requires the raw body to parse as JSON and
be type-sensitively structurally equal to it, and a parse failure is a
non-match, not an escaping error. -/
theorem body_subpredicate_as_claimed (parse : String → Option Json)
    (m : MatcherObj) (req : Request) (bv : BodyVal)
    (h : m.body = some bv) :
    matchBody parse m req = bodyClaim parse bv req.body := by
  unfold matchBody bodyClaim
  rw [h]
  cases hb : req.body with
  | none => rfl
  | some raw =>
    cases bv with
    | str s =>
      by_cases hs : s = raw
      · subst hs
        simp
      · simp [hs, Ne.symm hs]
    | json j => rfl

/-- C5 witness: a string body matcher `"hi"` against a request whose raw
body is `"hi"`, and against a body-less request. -/
theorem body_subpredicate_as_claimed_witness :
    (({ body := some (.str "hi") } : MatcherObj).body = some (.str "hi") ∧
      matchBody parse0 { body := some (.str "hi") } postReq =
        bodyClaim parse0 (.str "hi") postReq.body) ∧
    matchBody parse0 { body := some (.str "hi") } (getReq "/x") =
      bodyClaim parse0 (.str "hi") (getReq "/x").body := by
  refine ⟨⟨rfl, ?_⟩, ?_⟩
  · exact body_subpredicate_as_claimed parse0 _ postReq (.str "hi") rfl
  · exact body_subpredicate_as_claimed parse0 _ (getReq "/x") (.str "hi") rfl

/-- C7: `hasBeenCalledWith` is true exactly when the number of recorded
calls whose original request satisfies the evaluator against the normalized
matcher is positive, and `hasBeenCalledTimes n` is true exactly when that
count equals `n`; a bare string or regex argument is normalized to a
path-only matcher, the same normalization `mock()` applies at registration
time. -/
theorem call_count_queries (parse : String → Option Json)
    (st : ServerState) (n : Nat) (arg : MatcherArg) :
    hasBeenCalledWith parse st arg =
      decide (0 < countMatching parse st arg) ∧
    hasBeenCalledTimes parse st n arg =
      decide (countMatching parse st arg = n) ∧
    (∀ s, resolvePathMatcher (.str s) = .obj { path := some (.str s) }) ∧
    (∀ t, resolvePathMatcher (.regex t) =
      .obj { path := some (.regex t) }) ∧
    (∀ s r o, (mock st (.str s) r o).mocks = st.mocks ++
      [⟨resolvePathMatcher (.str s), coerceResponse r, o⟩]) := by
  refine ⟨?_, ?_, fun _ => rfl, fun _ => rfl, fun _ _ _ => rfl⟩
  · simp only [hasBeenCalledWith, countMatching]
    exact any_eq_decide_filter_pos _ _
  · simp only [hasBeenCalledTimes, countMatching]
    by_cases hn : (st.calls.filter fun c =>
        matchRequest parse (resolvePathMatcher arg) c.request).length = n
    · simp [hn]
    · simp [hn]

/-- C10: `hasBeenCalledWith m` is true exactly when `hasBeenCalledTimes 0 m`
is false; the two query operations are complementary at count zero. -/
theorem calledWith_complements_zero_times (parse : String → Option Json)
    (st : ServerState) (arg : MatcherArg) :
    hasBeenCalledWith parse st arg =
      !(hasBeenCalledTimes parse st 0 arg) := by
  simp only [hasBeenCalledWith, hasBeenCalledTimes]
  rw [any_eq_decide_filter_pos]
  by_cases hz : (st.calls.filter fun c =>
      matchRequest parse (resolvePathMatcher arg) c.request).length = 0
  · simp [hz]
  · simp [hz, Nat.pos_of_ne_zero hz]

/-- C9 counterexample: the claim fails on a matcher whose method field is
present but the empty string. The source's truthiness test `!matcher.method`
treats it like an absent field, so `matchMethod` accepts a `GET` request,
while the claim's case-insensitive comparison of `""` with `"GET"` is
false. -/
theorem method_subpredicate_counterexample :
    matchMethod { method := some "" } (getReq "/x") = true ∧
    methodClaim (some "") (getReq "/x").method = false := by
  constructor
  · decide
  · decide

/-- C9 amended: the method sub-predicate returns true when the matcher's
method field is absent or the empty string (which is falsy), and otherwise
returns true exactly when the matcher's and the request's method strings are
equal case-insensitively. -/
theorem method_subpredicate_amended (m : MatcherObj) (req : Request) :
    matchMethod m req = methodClaimAmended m.method req.method := by
  unfold matchMethod methodClaimAmended
  cases m.method with
  | none => rfl
  | some s =>
    by_cases hs : s = ""
    · subst hs
      simp
    · simp [hs]

theorem scoreStep (c g : Bool) (acc : ℚ × ℚ) (w : ℚ) :
    (if c then (acc.1 + w, if g then acc.2 + w else acc.2) else acc) =
      (acc.1 + countedWeight c w, acc.2 + countedWeight (c && g) w) := by
  cases c <;> cases g <;> simp [countedWeight]

theorem scoreStepBase (c g : Bool) (w : ℚ) :
    (if c then ((0 : ℚ) + w, if g then (0 : ℚ) + w else (0 : ℚ))
      else ((0 : ℚ), (0 : ℚ))) =
      (countedWeight c w, countedWeight (c && g) w) := by
  cases c <;> cases g <;> simp [countedWeight]

/-- C8 counterexample: the claim fails on a matcher with a present-but-empty
string body field. The source counts a field only when it passes a
truthiness guard (`if (matcher.body)`), so for the matcher
`path: "/a", body: ""` against a body-less `GET /a` request the code scores
3/3·100 = 100, while the claim's present-fields formula scores
3/7·100 = 300/7, since the present body field's sub-predicate fails on the
body-less request. -/
theorem score_formula_counterexample :
    score parse0 { path := some (.str "/a"), body := some (.str "") }
        (getReq "/a") = 100 ∧
    scoreFormulaPresent parse0
        { path := some (.str "/a"), body := some (.str "") }
        (getReq "/a") = 300 / 7 := by
  have h1 : optStrTruthy
      ({ path := some (.str "/a"), body := some (.str "") } :
        MatcherObj).method = false := by decide
  have h2 : pathTruthy
      ({ path := some (.str "/a"), body := some (.str "") } :
        MatcherObj).path = true := by decide
  have h3 : queryTruthy
      ({ path := some (.str "/a"), body := some (.str "") } :
        MatcherObj).query = false := by decide
  have h4 : headersTruthy
      ({ path := some (.str "/a"), body := some (.str "") } :
        MatcherObj).headers = false := by decide
  have h5 : bodyOptTruthy
      ({ path := some (.str "/a"), body := some (.str "") } :
        MatcherObj).body = false := by decide
  have g2 : matchPath { path := some (.str "/a"), body := some (.str "") }
      (getReq "/a") = true := by decide
  have g5 : matchBody parse0
      { path := some (.str "/a"), body := some (.str "") }
      (getReq "/a") = false := by decide
  have g1 : matchMethod { path := some (.str "/a"), body := some (.str "") }
      (getReq "/a") = true := by decide
  have g3 : matchQuery { path := some (.str "/a"), body := some (.str "") }
      (getReq "/a") = true := by decide
  have g4 : matchHeaders
      { path := some (.str "/a"), body := some (.str "") }
      (getReq "/a") = true := by decide
  constructor
  · simp only [score, h1, h2, h3, h4, h5, g2]
    norm_num
  · simp only [scoreFormulaPresent, g1, g2, g3, g4, g5, countedWeight]
    norm_num

/-- C8 amended: the similarity score equals the weighted-coverage formula
over the matcher fields counted by the source's truthiness guards (method
and string paths count only when nonempty, a string body only when
nonempty; regex paths, structural bodies, and present query/headers objects
always count), with weights method=1, path=3, query=3, headers=2, body=4;
and the per-call diff blocks of the `hasBeenCalledWith` expectation message
are ordered by this score in descending order. -/
theorem score_formula_and_diff_order (parse : String → Option Json)
    (st : ServerState) (m : MatcherObj) (req : Request) :
    score parse m req = scoreFormula parse m req ∧
    (formatDiffsOrder parse st m).Pairwise
      (fun a b => score parse m b ≤ score parse m a) := by
  constructor
  · simp only [score]
    rw [scoreStep, scoreStep, scoreStep, scoreStep, scoreStepBase]
    simp [scoreFormula]
  · unfold formatDiffsOrder
    rw [List.pairwise_map]
    have htr : ∀ a b c : Request × ℚ,
        (fun x y : Request × ℚ => decide (y.2 - x.2 ≤ 0)) a b = true →
        (fun x y : Request × ℚ => decide (y.2 - x.2 ≤ 0)) b c = true →
        (fun x y : Request × ℚ => decide (y.2 - x.2 ≤ 0)) a c = true := by
      intro a b c hab hbc
      simp only [decide_eq_true_eq] at *
      linarith
    have hto : ∀ a b : Request × ℚ,
        ((fun x y : Request × ℚ => decide (y.2 - x.2 ≤ 0)) a b ||
          (fun x y : Request × ℚ => decide (y.2 - x.2 ≤ 0)) b a) = true := by
      intro a b
      simp only [Bool.or_eq_true, decide_eq_true_eq]
      rcases le_total a.2 b.2 with hab | hba
      · right
        linarith
      · left
        linarith
    have hsorted := List.sorted_mergeSort htr hto
      (st.calls.map fun c => (c.request, score parse m c.request))
    refine List.Pairwise.imp_of_mem ?_ hsorted
    intro p q hp hq hle
    have hpl : p ∈ st.calls.map fun c => (c.request, score parse m c.request) :=
      (List.mergeSort_perm _ _).subset hp
    have hql : q ∈ st.calls.map fun c => (c.request, score parse m c.request) :=
      (List.mergeSort_perm _ _).subset hq
    obtain ⟨cp, _, hcp⟩ := List.mem_map.mp hpl
    obtain ⟨cq, _, hcq⟩ := List.mem_map.mp hql
    simp only [decide_eq_true_eq] at hle
    have hps : p.2 = score parse m p.1 := by
      rw [← hcp]
    have hqs : q.2 = score parse m q.1 := by
      rw [← hcq]
    have : q.2 ≤ p.2 := by linarith
    rw [hps, hqs] at this
    exact this

end Mocaron
